import Mathlib

/-!
Verification development for the component instrumentation engine of a
React Native profiler extension.  The two source modules embedded here are

* componentWrapper.ts   -- class ComponentWrapper: AST-based wrapping of a
  named component in a call to the withProfiler higher-order component,
  plus the import bookkeeping and the single guarded disk write;
* componentTreeProvider.ts -- class ComponentTreeProvider: AST-based
  detection of exported React components, with a regex fallback.

The Babel AST fragment used by these modules is embedded shallowly below:
expressions and statements become mutual inductive types, the Babel
traverse calls become structural scans, and the visitor dispatch of the
two passes of wrapComponentWithAST becomes a per-statement step function.
Machine strings are Lean strings; the JavaScript toUpperCase test on the
first character is modelled on ASCII code points (the regular expressions
in the sources are themselves ASCII-only).  File system state is passed
explicitly; the recursive directory search for the withProfiler file
(which only reads) is summarized by an optional import path argument.
-/

namespace RNCP

/-- Model of the ASCII action of the JavaScript toUpperCase on one code
point: lowercase letters a..z (97..122) are shifted down by 32, every
other code point is left unchanged. -/
def jsUpperNat (t : Nat) : Nat :=
  if 97 ≤ t ∧ t ≤ 122 then t - 32 else t

/-- Source check used by the detector gates, from isReactComponent and
friends: the name is nonempty and its first character equals its own
uppercased form (name[0] === name[0].toUpperCase()).  An empty name is
rejected because !name short-circuits in the sources. -/
def firstCharStable (name : String) : Bool :=
  match name.data with
  | [] => false
  | c :: _ => jsUpperNat c.toNat == c.toNat

/-- Predicate used to state the claims: the name begins with a lowercase
ASCII letter. -/
def startsLowerAscii (name : String) : Bool :=
  match name.data with
  | [] => false
  | c :: _ => decide (97 ≤ c.toNat ∧ c.toNat ≤ 122)

/-- Helper for substring search: the pattern is a prefix of the text. -/
def listLeads : List Char → List Char → Bool
  | [], _ => true
  | _ :: _, [] => false
  | p :: ps, c :: cs => p == c && listLeads ps cs

/-- Helper for substring search: the pattern occurs somewhere in the
text. -/
def listHasSub (pat : List Char) : List Char → Bool
  | [] => listLeads pat []
  | c :: cs => listLeads pat (c :: cs) || listHasSub pat cs

/-- Model of the JavaScript String.includes used by the first pass of
wrapComponentWithAST on the module path of each ImportDeclaration. -/
def strContains (s pat : String) : Bool :=
  listHasSub pat.data s.data

mutual

/-- Expression fragment of the Babel AST used by the two modules.
CallExpression keeps its callee and arguments; MemberExpression keeps
the object and the property name; ArrowFunctionExpression is split by
the shape of its body (expression or block); JSXElement and JSXFragment
are leaves (their children are never inspected); ParenthesizedExpression
wraps an inner expression; every other literal is collapsed into
otherLit. -/
inductive Expr where
  | ident (name : String)
  | call (callee : Expr) (args : List Expr)
  | member (obj : Expr) (prop : String)
  | arrowExprBody (body : Expr)
  | arrowBlockBody (body : List Stmt)
  | funExpr (body : List Stmt)
  | jsxElem
  | jsxFrag
  | paren (inner : Expr)
  | strLit (s : String)
  | otherLit

/-- Statement fragment of the Babel AST: ReturnStatement with optional
argument, VariableDeclaration with its declarators (identifier pattern
as an optional name, optional initializer), ExpressionStatement,
BlockStatement, and a nested FunctionDeclaration (Babel traverse
descends into nested function bodies, so they are part of the scanned
tree). -/
inductive Stmt where
  | ret (arg : Option Expr)
  | varStmt (decls : List (Option String × Option Expr))
  | exprStmt (e : Expr)
  | block (body : List Stmt)
  | funDeclStmt (id : Option String) (body : List Stmt)

end

/-- Declarator of a VariableDeclaration: the binding (some name when the
pattern is a plain Identifier) and the optional initializer. -/
abbrev Declarator := Option String × Option Expr

/-- Superclass shape of a ClassDeclaration, as far as
isReactClassComponent inspects it: a bare identifier, a member access
with identifier object and property, or anything else. -/
inductive SuperClass where
  | supIdent (name : String)
  | supMember (obj : String) (prop : String)
  | supOther

/-- Declaration carried by an ExportNamedDeclaration. -/
inductive NamedDecl where
  | funDecl (id : Option String) (body : List Stmt)
  | classDecl (id : Option String) (sup : Option SuperClass) (methods : List String)
  | varDecl (kind : String) (decls : List Declarator)

/-- Declaration carried by an ExportDefaultDeclaration.  The varDecl
shape cannot be produced by the parser for default exports but the
wrapper has a branch for it (Case 2 of the visitor), so it is kept. -/
inductive DefaultDecl where
  | funDecl (id : Option String) (body : List Stmt)
  | classDecl (id : Option String) (sup : Option SuperClass) (methods : List String)
  | varDecl (decls : List Declarator)
  | expr (e : Expr)

/-- Export kind of an ExportNamedDeclaration: a value export or a
type-only export. -/
inductive ExportKind where
  | value
  | typeK

/-- Top level statement of a parsed program.  The constructor impDecl
embeds an ImportDeclaration with its module path and the list of local
names it binds; funDeclTop is a plain (non-exported) FunctionDeclaration
as produced by the named-function-export rewrite; stmt embeds any other
statement, which both visitors ignore. -/
inductive TopStmt where
  | impDecl (source : String) (bindings : List String)
  | exportDefault (d : DefaultDecl)
  | exportNamed (kind : ExportKind) (d : Option NamedDecl)
  | funDeclTop (id : Option String) (body : List Stmt)
  | stmt (s : Stmt)

/-- Shallow JSX test from componentTreeProvider.hasJSXElement, on a
present node: direct JSXElement or JSXFragment, recursion through
ParenthesizedExpression, and for any CallExpression the source first
tests for React.createElement and then returns true for every call
anyway (the lenient fallthrough), so every call node yields true. -/
def hasJSXElementE : Expr → Bool
  | .jsxElem => true
  | .jsxFrag => true
  | .paren inner => hasJSXElementE inner
  | .call _ _ => true
  | _ => false

/-- Source hasJSXElement on a nullable node: null and undefined give
false. -/
def hasJSXElement : Option Expr → Bool
  | none => false
  | some e => hasJSXElementE e

/-- Visitor set of one Babel traverse call: the value contributed when a
ReturnStatement node is visited (as a function of its argument), whether
JSXElement and JSXFragment visits set the flag, and the value
contributed when a VariableDeclarator node is visited (as a function of
its initializer).  The traversals in the sources only ever OR such
contributions into boolean flags, so a whole traverse call is the OR of
the contributions over all visited nodes; path.stop only cuts the scan
after the flags are already true and never changes the result. -/
structure VisitCfg where
  retHit : Option Expr → Bool
  jsxHit : Bool
  varHit : Option Expr → Bool

mutual

/-- Contribution of a traverse call over all nodes below an expression. -/
def visitExpr (p : VisitCfg) : Expr → Bool
  | .ident _ => false
  | .call callee args => visitExpr p callee || visitExprs p args
  | .member obj _ => visitExpr p obj
  | .arrowExprBody body => visitExpr p body
  | .arrowBlockBody body => visitStmts p body
  | .funExpr body => visitStmts p body
  | .jsxElem => p.jsxHit
  | .jsxFrag => p.jsxHit
  | .paren inner => visitExpr p inner
  | .strLit _ => false
  | .otherLit => false

/-- Contribution over an argument list. -/
def visitExprs (p : VisitCfg) : List Expr → Bool
  | [] => false
  | e :: es => visitExpr p e || visitExprs p es

/-- Contribution over all nodes below a statement; a ReturnStatement
both fires its own visitor and is descended into. -/
def visitStmt (p : VisitCfg) : Stmt → Bool
  | .ret arg => p.retHit arg || (match arg with
      | some e => visitExpr p e
      | none => false)
  | .varStmt decls => visitDecls p decls
  | .exprStmt e => visitExpr p e
  | .block body => visitStmts p body
  | .funDeclStmt _ body => visitStmts p body

/-- Contribution over a statement list. -/
def visitStmts (p : VisitCfg) : List Stmt → Bool
  | [] => false
  | s :: ss => visitStmt p s || visitStmts p ss

/-- Contribution over the declarators of a VariableDeclaration; each
declarator fires the VariableDeclarator visitor and its initializer is
descended into. -/
def visitDecls (p : VisitCfg) : List (Option String × Option Expr) → Bool
  | [] => false
  | (_, init) :: rest => p.varHit init || (match init with
      | some e => visitExpr p e
      | none => false) || visitDecls p rest

end

/-- Traverse call inside isReactComponent that drives the hasReturn
flag: only the ReturnStatement visitor contributes. -/
def anyReturnS (body : List Stmt) : Bool :=
  visitStmts ⟨fun _ => true, false, fun _ => false⟩ body

/-- Traverse call inside isComponentVariable over an arrow block body:
only ReturnStatement nodes whose argument passes hasJSXElement
contribute. -/
def anyRetJSXS (body : List Stmt) : Bool :=
  visitStmts ⟨fun arg => hasJSXElement arg, false, fun _ => false⟩ body

/-- Traverse call inside isReactComponent that drives the hasJSX flag:
ReturnStatement arguments through hasJSXElement, plain JSXElement and
JSXFragment visits, and VariableDeclarator initializers through
hasJSXElement. -/
def detectHasJSX (body : List Stmt) : Bool :=
  visitStmts ⟨fun arg => hasJSXElement arg, true, fun init => hasJSXElement init⟩ body

/-- Traverse call inside isComponentExpression over a block body:
ReturnStatement arguments through hasJSXElement plus plain JSXElement
and JSXFragment visits. -/
def exprScanJSX (body : List Stmt) : Bool :=
  visitStmts ⟨fun arg => hasJSXElement arg, true, fun _ => false⟩ body

/-- Embedding of componentTreeProvider.isReactComponent on a function
declaration with the given name and block body.  A Babel
FunctionDeclaration always carries a BlockStatement body, so the
isBlockStatement test of the source holds on every value of the model;
after the uppercase gate the source returns true when JSX was found,
true when a return statement was found, and true in the remaining
leniency branch. -/
def isReactComponent (name : String) (body : List Stmt) : Bool :=
  if firstCharStable name then
    let hasJSX := detectHasJSX body
    let hasReturn := anyReturnS body
    if hasJSX then true
    else if hasReturn then true
    else true
  else false

/-- Embedding of componentTreeProvider.isReactClassComponent: gate on
the class identifier, then the superclass checks (bare Component or
PureComponent, or React.Component and React.PureComponent), and
otherwise a scan of the class body for a method named render. -/
def isReactClassComponent (id : Option String) (sup : Option SuperClass)
    (methods : List String) : Bool :=
  match id with
  | none => false
  | some n =>
    if firstCharStable n then
      let supMatch :=
        match sup with
        | some (.supIdent s) => s == "Component" || s == "PureComponent"
        | some (.supMember o pr) =>
            o == "React" && (pr == "Component" || pr == "PureComponent")
        | _ => false
      if supMatch then true else methods.contains "render"
    else false

/-- Callee test shared by componentTreeProvider.isComponentVariable and
componentWrapper.isLikelyComponent: the callee is the identifier memo,
forwardRef or lazy, or a member access whose property is one of them. -/
def decoratorCallee : Expr → Bool
  | .ident n => ["memo", "forwardRef", "lazy"].contains n
  | .member _ pr => ["memo", "forwardRef", "lazy"].contains pr
  | _ => false

/-- Embedding of componentTreeProvider.isComponentVariable.  Note the
source shape: for an arrow function with an expression body the JSX test
returns true and the non-JSX case falls through to the trailing return
true, so both give true; for an arrow with a block body the result is
the return-with-JSX scan; function expressions reach the trailing
return true; calls use the decorator callee test. -/
def isComponentVariable (init : Option Expr) (name : String) : Bool :=
  match init with
  | none => false
  | some i =>
    if firstCharStable name then
      match i with
      | .arrowExprBody _ => true
      | .arrowBlockBody body => anyRetJSXS body
      | .funExpr _ => true
      | .call callee _ => decoratorCallee callee
      | _ => false
    else false

/-- Embedding of componentTreeProvider.isComponentExpression, used for
anonymous default exports: an arrow with a JSX expression body, or an
arrow or function expression with a block body containing a
return-with-JSX or a JSX node. -/
def isComponentExpression : Expr → Bool
  | .arrowExprBody body =>
    (match body with
     | .jsxElem => true
     | .jsxFrag => true
     | _ => false)
  | .arrowBlockBody body => exprScanJSX body
  | .funExpr body => exprScanJSX body
  | _ => false

/-- Index of the last dot in the character list, used to model the Node
path.extname on a bare file name (no directory separators occur in the
scanned entry names). -/
def findLastDot (cs : List Char) : Option Nat :=
  cs.enum.foldl (fun acc p => if p.2 == '.' then some p.1 else acc) none

/-- Model of path.basename(fileName, path.extname(fileName)) on a bare
file name: strip the extension that starts at the last dot, except when
that dot is the first character (path.extname returns the empty string
for dotfiles, so nothing is stripped). -/
def baseNameNoExt (s : String) : String :=
  match findLastDot s.data with
  | some i => if i == 0 then s else ⟨s.data.take i⟩
  | none => s

/-- Action of the replacement regex ^[a-z] with toUpperCase on the
leading character: a lowercase ASCII letter is shifted to uppercase,
anything else is left in place (and is then not matched by [a-z]). -/
def capLeadChar (c : Char) : Char :=
  if 97 ≤ c.toNat ∧ c.toNat ≤ 122 then Char.ofNat (c.toNat - 32) else c

/-- Component name derived from the file name for an anonymous default
export: drop the extension, strip leading underscores, uppercase a
leading lowercase ASCII letter (the source regex [a-z] is ASCII), and
fall back to the literal name Component when nothing remains. -/
def deriveName (fileName : String) : String :=
  let base := baseNameNoExt fileName
  let stripped := base.data.dropWhile (fun c => c == '_')
  let capped : List Char :=
    match stripped with
    | [] => []
    | c :: cs => capLeadChar c :: cs
  if capped.isEmpty then "Component" else ⟨capped⟩

/-- Insertion into the components set of extractComponentsWithAST: a
JavaScript Set keeps insertion order and ignores duplicates. -/
def addComp (acc : List String) (n : String) : List String :=
  if acc.contains n then acc else acc ++ [n]

/-- Step of the declarator loop in the ExportNamedDeclaration visitor of
extractComponentsWithAST: identifier patterns whose initializer passes
isComponentVariable are added. -/
def namedVarStep (acc : List String) (dcl : Declarator) : List String :=
  match dcl.1 with
  | some n => if isComponentVariable dcl.2 n then addComp acc n else acc
  | none => acc

/-- Contribution of one top level statement to the component set, the
body of the two visitors of extractComponentsWithAST.  The
ExportDefaultDeclaration visitor handles named function declarations,
named class declarations, bare identifiers (added with no further
check), and anonymous arrow and function expressions (named after the
file).  The ExportNamedDeclaration visitor first skips type-only
exports, then handles function declarations, class declarations and
variable declarations. -/
def extractStep (fileName : String) (acc : List String) : TopStmt → List String
  | .exportDefault d =>
    (match d with
     | .funDecl (some n) body =>
         if isReactComponent n body then addComp acc n else acc
     | .funDecl none _ => acc
     | .classDecl (some n) sup methods =>
         if isReactClassComponent (some n) sup methods then addComp acc n else acc
     | .classDecl none _ _ => acc
     | .varDecl _ => acc
     | .expr e =>
       (match e with
        | .ident n => addComp acc n
        | .arrowExprBody _ | .arrowBlockBody _ | .funExpr _ =>
            if isComponentExpression e then addComp acc (deriveName fileName) else acc
        | _ => acc))
  | .exportNamed kind d =>
    (match kind with
     | .typeK => acc
     | .value =>
       (match d with
        | some (.funDecl (some n) body) =>
            if isReactComponent n body then addComp acc n else acc
        | some (.classDecl (some n) sup methods) =>
            if isReactClassComponent (some n) sup methods then addComp acc n else acc
        | some (.varDecl _ decls) => decls.foldl namedVarStep acc
        | _ => acc))
  | _ => acc

/-- Embedding of componentTreeProvider.extractComponentsWithAST on an
already parsed program: the traverse call visits the export statements
in program order and fills the components set. -/
def extractComponentsWithAST (fileName : String) (prog : List TopStmt) : List String :=
  prog.foldl (extractStep fileName) []

/-- Embedding of componentWrapper.isAlreadyWrapped on an expression
node: a CallExpression whose callee is the identifier withProfiler. -/
def isAlreadyWrapped : Expr → Bool
  | .call callee _ =>
    (match callee with
     | .ident n => n == "withProfiler"
     | _ => false)
  | _ => false

/-- Source isAlreadyWrapped on a nullable node (a declarator
initializer): null and undefined give false. -/
def isAlreadyWrappedOpt : Option Expr → Bool
  | none => false
  | some e => isAlreadyWrapped e

/-- Source isAlreadyWrapped applied to the declaration of an
ExportDefaultDeclaration: only an expression declaration can be a
CallExpression; function, class and variable declarations never are. -/
def isAlreadyWrappedDefault : DefaultDecl → Bool
  | .expr e => isAlreadyWrapped e
  | _ => false

/-- Source isAlreadyWrapped applied to the declaration of an
ExportNamedDeclaration (the guard of the named-function branch): a
declaration node is never a CallExpression, so the guard is constant
false; it is kept to mirror the source control flow. -/
def isAlreadyWrappedNamed : NamedDecl → Bool
  | _ => false

/-- Embedding of componentWrapper.isLikelyComponent: arrow functions and
function expressions are accepted, call expressions are accepted when
the callee passes the decorator test (memo, forwardRef, lazy, bare or as
a member property), everything else including a missing initializer is
rejected. -/
def isLikelyComponent : Option Expr → Bool
  | none => false
  | some (.arrowExprBody _) => true
  | some (.arrowBlockBody _) => true
  | some (.funExpr _) => true
  | some (.call callee _) => decoratorCallee callee
  | some _ => false

/-- Wrapped call node built by the visitors:
withProfiler(argument, "name"). -/
def wrapCall (arg : Expr) (name : String) : Expr :=
  .call (.ident "withProfiler") [arg, .strLit name]

/-- Body of the declarator loop of the ExportNamedDeclaration visitor of
wrapComponentWithAST: an identifier pattern equal to componentName whose
initializer passes isLikelyComponent and is not already wrapped has its
initializer replaced by the wrapped call; the returned count records
whether a wrap happened. -/
def wrapDeclarator (componentName : String) (d : Declarator) : Declarator × Nat :=
  match d with
  | (id, init) =>
    if id == some componentName && isLikelyComponent init then
      if isAlreadyWrappedOpt init then ((id, init), 0)
      else
        match init with
        | some i => ((id, some (wrapCall i componentName)), 1)
        | none => ((id, init), 0)
    else ((id, init), 0)

/-- Declarator loop of the ExportNamedDeclaration visitor, accumulating
the wrap count. -/
def wrapDecls (componentName : String) : List Declarator → List Declarator × Nat
  | [] => ([], 0)
  | d :: rest =>
    let r := wrapDeclarator componentName d
    let rs := wrapDecls componentName rest
    (r.1 :: rs.1, r.2 + rs.2)

/-- Body of the ExportDefaultDeclaration visitor of the second pass,
returning the statements that replace the export and the number of
wraps performed.  The visitor skips declarations that are already
wrapped, and otherwise handles four cases on a name match: a named
function declaration, a variable declaration (first declarator), a bare
identifier, and a named class declaration.  In each case the source sets
path.node.declaration to the built call expression
withProfiler(Identifier, "Name"), so the previous declaration node
(function or class body included) is replaced by the call. -/
def wrapStepDefault (componentName : String) (d : DefaultDecl) : List TopStmt × Nat :=
  if isAlreadyWrappedDefault d then ([.exportDefault d], 0)
  else
    match d with
    | .funDecl (some id) body =>
      if id == componentName then
        ([.exportDefault (.expr (wrapCall (.ident id) id))], 1)
      else ([.exportDefault (.funDecl (some id) body)], 0)
    | .varDecl decls =>
      (match decls with
       | (some vid, vinit) :: rest =>
         if vid == componentName then
           ([.exportDefault (.expr (wrapCall (.ident vid) vid))], 1)
         else ([.exportDefault (.varDecl ((some vid, vinit) :: rest))], 0)
       | other => ([.exportDefault (.varDecl other)], 0))
    | .expr e =>
      (match e with
       | .ident m =>
         if m == componentName then
           ([.exportDefault (.expr (wrapCall (.ident m) m))], 1)
         else ([.exportDefault (.expr (.ident m))], 0)
       | other => ([.exportDefault (.expr other)], 0))
    | .classDecl (some cid) sup methods =>
      if cid == componentName then
        ([.exportDefault (.expr (wrapCall (.ident cid) cid))], 1)
      else ([.exportDefault (.classDecl (some cid) sup methods)], 0)
    | other => ([.exportDefault other], 0)

/-- Body of the ExportNamedDeclaration visitor of the second pass: skip
type-only exports, run the declarator loop on variable declarations,
and demote a matching named function export to a plain function
declaration followed by a new
export const Name = withProfiler(Name, "Name"). -/
def wrapStepNamed (componentName : String) (kind : ExportKind)
    (d : Option NamedDecl) : List TopStmt × Nat :=
  match kind with
  | .typeK => ([.exportNamed .typeK d], 0)
  | .value =>
    match d with
    | some (.varDecl vk decls) =>
      let r := wrapDecls componentName decls
      ([.exportNamed .value (some (.varDecl vk r.1))], r.2)
    | some (.funDecl (some fid) body) =>
      if fid == componentName then
        if isAlreadyWrappedNamed (.funDecl (some fid) body) then
          ([.exportNamed .value (some (.funDecl (some fid) body))], 0)
        else
          ([.funDeclTop (some fid) body,
            .exportNamed .value (some (.varDecl "const"
              [(some componentName,
                some (wrapCall (.ident componentName) componentName))]))], 1)
      else ([.exportNamed .value (some (.funDecl (some fid) body))], 0)
    | other => ([.exportNamed .value other], 0)

/-- Action of the second traverse pass of wrapComponentWithAST on one
top level statement: the visitor dispatch over the two export statement
kinds; imports, plain function declarations and other statements are
not visited. -/
def wrapStep (componentName : String) : TopStmt → List TopStmt × Nat
  | .impDecl source bindings => ([.impDecl source bindings], 0)
  | .funDeclTop id body => ([.funDeclTop id body], 0)
  | .stmt s => ([.stmt s], 0)
  | .exportDefault d => wrapStepDefault componentName d
  | .exportNamed kind d => wrapStepNamed componentName kind d

/-- Second traverse pass over the whole program body.  The source
splices the new export const statement into the body array during the
traversal; whether or not the traversal then visits that inserted
statement makes no difference, because the inserted statement is left
unchanged with a zero count by the visitor (its initializer is a call
to withProfiler, which fails the likely-component test), so the single
flat pass below is extensionally the same. -/
def wrapPass (componentName : String) : List TopStmt → List TopStmt × Nat
  | [] => ([], 0)
  | s :: rest =>
    let r := wrapStep componentName s
    let rs := wrapPass componentName rest
    (r.1 ++ rs.1, r.2 + rs.2)

/-- First traverse pass, part one: some ImportDeclaration has a module
path containing the substring withProfiler. -/
def hasWithProfilerImport (prog : List TopStmt) : Bool :=
  prog.any fun s =>
    match s with
    | .impDecl source _ => strContains source "withProfiler"
    | _ => false

/-- First traverse pass, part two: importInsertionIndex starts at 0 and
is raised to the body index of every ImportDeclaration that exceeds it
(so it ends at the largest import index, and stays 0 when the program
has no imports at all). -/
def importIdxAux (i acc : Nat) : List TopStmt → Nat
  | [] => acc
  | .impDecl _ _ :: rest => importIdxAux (i + 1) (if i > acc then i else acc) rest
  | _ :: rest => importIdxAux (i + 1) acc rest

/-- Final value of importInsertionIndex after the first pass. -/
def importInsertionIndex (prog : List TopStmt) : Nat :=
  importIdxAux 0 0 prog

/-- JavaScript Array.splice(i, 0, x): insert at position i, clamped to
the end of the array. -/
def spliceInsert (i : Nat) (x : α) (l : List α) : List α :=
  l.take i ++ x :: l.drop i

/-- Embedding of componentWrapper.wrapComponentWithAST on an already
parsed program: run the import scan and the wrapping pass; when at least
one wrap happened and no withProfiler import was seen, splice the
new import at importInsertionIndex + 1 (the guard of the source that
the index be non-negative always holds; the unshift branch is reached
only on an empty body); return the mutated program
when at least one wrap happened and null (none) otherwise. -/
def wrapComponentWithAST (prog : List TopStmt) (componentName importPath : String) :
    Option (List TopStmt) :=
  let hasImp := hasWithProfilerImport prog
  let insIdx := importInsertionIndex prog
  let r := wrapPass componentName prog
  let newImport : TopStmt := .impDecl importPath ["withProfiler"]
  let body :=
    if r.2 > 0 && !hasImp then
      if r.1.length > 0 then spliceInsert (insIdx + 1) newImport r.1
      else newImport :: r.1
    else r.1
  if r.2 > 0 then some body else none

/-- Text level result of one transform call: a null transform result
leaves the file content unchanged. -/
def transformFile (prog : List TopStmt) (componentName importPath : String) :
    List TopStmt :=
  (wrapComponentWithAST prog componentName importPath).getD prog

mutual

/-- Structural equality on expressions, standing in for the string
comparison of regenerated and original text in wrapComponent (the
printer is a function of the tree, and equal trees print equally). -/
def beqExpr : Expr → Expr → Bool
  | .ident a, .ident b => a == b
  | .call c1 a1, .call c2 a2 => beqExpr c1 c2 && beqExprList a1 a2
  | .member o1 p1, .member o2 p2 => beqExpr o1 o2 && p1 == p2
  | .arrowExprBody b1, .arrowExprBody b2 => beqExpr b1 b2
  | .arrowBlockBody b1, .arrowBlockBody b2 => beqStmtList b1 b2
  | .funExpr b1, .funExpr b2 => beqStmtList b1 b2
  | .jsxElem, .jsxElem => true
  | .jsxFrag, .jsxFrag => true
  | .paren i1, .paren i2 => beqExpr i1 i2
  | .strLit a, .strLit b => a == b
  | .otherLit, .otherLit => true
  | _, _ => false

/-- Structural equality on expression lists. -/
def beqExprList : List Expr → List Expr → Bool
  | [], [] => true
  | e :: es, f :: fs => beqExpr e f && beqExprList es fs
  | _, _ => false

/-- Structural equality on statements. -/
def beqStmt : Stmt → Stmt → Bool
  | .ret a1, .ret a2 => beqOptExpr a1 a2
  | .varStmt d1, .varStmt d2 => beqDeclList d1 d2
  | .exprStmt e1, .exprStmt e2 => beqExpr e1 e2
  | .block b1, .block b2 => beqStmtList b1 b2
  | .funDeclStmt i1 b1, .funDeclStmt i2 b2 => i1 == i2 && beqStmtList b1 b2
  | _, _ => false

/-- Structural equality on statement lists. -/
def beqStmtList : List Stmt → List Stmt → Bool
  | [], [] => true
  | s :: ss, t :: ts => beqStmt s t && beqStmtList ss ts
  | _, _ => false

/-- Structural equality on optional expressions. -/
def beqOptExpr : Option Expr → Option Expr → Bool
  | none, none => true
  | some a, some b => beqExpr a b
  | _, _ => false

/-- Structural equality on declarator lists. -/
def beqDeclList : List (Option String × Option Expr) → List (Option String × Option Expr) → Bool
  | [], [] => true
  | (i1, e1) :: ds, (i2, e2) :: es => i1 == i2 && beqOptExpr e1 e2 && beqDeclList ds es
  | _, _ => false

end

/-- Structural equality on superclass shapes. -/
def beqSuper : Option SuperClass → Option SuperClass → Bool
  | none, none => true
  | some .supOther, some .supOther => true
  | some (.supIdent a), some (.supIdent b) => a == b
  | some (.supMember o1 p1), some (.supMember o2 p2) => o1 == o2 && p1 == p2
  | _, _ => false

/-- Structural equality on named export declarations. -/
def beqNamedDecl : Option NamedDecl → Option NamedDecl → Bool
  | none, none => true
  | some (.funDecl i1 b1), some (.funDecl i2 b2) => i1 == i2 && beqStmtList b1 b2
  | some (.classDecl i1 s1 m1), some (.classDecl i2 s2 m2) =>
      i1 == i2 && beqSuper s1 s2 && m1 == m2
  | some (.varDecl k1 d1), some (.varDecl k2 d2) => k1 == k2 && beqDeclList d1 d2
  | _, _ => false

/-- Structural equality on default export declarations. -/
def beqDefaultDecl : DefaultDecl → DefaultDecl → Bool
  | .funDecl i1 b1, .funDecl i2 b2 => i1 == i2 && beqStmtList b1 b2
  | .classDecl i1 s1 m1, .classDecl i2 s2 m2 => i1 == i2 && beqSuper s1 s2 && m1 == m2
  | .varDecl d1, .varDecl d2 => beqDeclList d1 d2
  | .expr e1, .expr e2 => beqExpr e1 e2
  | _, _ => false

/-- Structural equality on export kinds. -/
def beqKind : ExportKind → ExportKind → Bool
  | .value, .value => true
  | .typeK, .typeK => true
  | _, _ => false

/-- Structural equality on top level statements. -/
def beqTopStmt : TopStmt → TopStmt → Bool
  | .impDecl s1 b1, .impDecl s2 b2 => s1 == s2 && b1 == b2
  | .exportDefault d1, .exportDefault d2 => beqDefaultDecl d1 d2
  | .exportNamed k1 d1, .exportNamed k2 d2 => beqKind k1 k2 && beqNamedDecl d1 d2
  | .funDeclTop i1 b1, .funDeclTop i2 b2 => i1 == i2 && beqStmtList b1 b2
  | .stmt s1, .stmt s2 => beqStmt s1 s2
  | _, _ => false

/-- Structural equality on programs, the model of the
transformedContent !== originalContent comparison of wrapComponent. -/
def beqProg : List TopStmt → List TopStmt → Bool
  | [], [] => true
  | s :: ss, t :: ts => beqTopStmt s t && beqProg ss ts
  | _, _ => false

/-- File system contents, keyed by full path. -/
abbrev Store := List (String × List TopStmt)

/-- Lookup models fs.existsSync plus fs.readFileSync. -/
def lookupStore : Store → String → Option (List TopStmt)
  | [], _ => none
  | (q, v) :: rest, p => if q == p then some v else lookupStore rest p

/-- Write models fs.writeFileSync: replace the content at the path, or
create the file. -/
def writeStore : Store → String → List TopStmt → Store
  | [], p, v => [(p, v)]
  | (q, w) :: rest, p, v =>
    if q == p then (p, v) :: rest else (q, w) :: writeStore rest p v

/-- Characters of the component path before the first occurrence of the
:: separator, modelling componentPath.split("::")[0]. -/
def beforeSep : List Char → List Char
  | [] => []
  | ':' :: ':' :: _ => []
  | c :: rest => c :: beforeSep rest

/-- File path part of a component path of the shape
path/to/file.tsx::ComponentName (or a bare path). -/
def splitPathHead (componentPath : String) : String :=
  ⟨beforeSep componentPath.data⟩

/-- Model of path.join for the two-segment joins used here. -/
def pathJoin (a b : String) : String :=
  a ++ "/" ++ b

/-- Full path of the file addressed by a wrap request. -/
def fullPathOf (workspaceRoot componentPath : String) : String :=
  pathJoin workspaceRoot (splitPathHead componentPath)

/-- Embedding of componentWrapper.wrapComponent.  The argument
withProfilerImportPath summarizes findWithProfilerFile together with the
relative path computation (lines 168 to 191 of the source): both only
read the file system and yield the import path, or none when no
withProfiler file exists, in which case the call fails early.  The file
must exist (existsSync), the transform must return a changed program,
and only then is the single write performed and true returned; every
other branch, including the caught-exception paths, returns false with
the store untouched. -/
def wrapComponent (st : Store) (withProfilerImportPath : Option String)
    (componentPath componentName workspaceRoot : String) : Bool × Store :=
  let fullPath := fullPathOf workspaceRoot componentPath
  match lookupStore st fullPath with
  | none => (false, st)
  | some originalContent =>
    match withProfilerImportPath with
    | none => (false, st)
    | some ip =>
      match wrapComponentWithAST originalContent componentName ip with
      | some transformed =>
        if beqProg transformed originalContent then (false, st)
        else (true, writeStore st fullPath transformed)
      | none => (false, st)

/-- Whitespace class of the fallback regular expressions (the ASCII part
of the JavaScript class backslash-s; no other whitespace occurs in the
inputs considered). -/
def isWs (c : Char) : Bool :=
  c == ' ' || c == '\t' || c == '\n' || c == '\r' || c == '\x0b' || c == '\x0c'

/-- Character class A-Z. -/
def isUpperCh (c : Char) : Bool :=
  decide (65 ≤ c.toNat ∧ c.toNat ≤ 90)

/-- Character class a-zA-Z0-9. -/
def isAlnumCh (c : Char) : Bool :=
  decide (65 ≤ c.toNat ∧ c.toNat ≤ 90) || decide (97 ≤ c.toNat ∧ c.toNat ≤ 122) ||
    decide (48 ≤ c.toNat ∧ c.toNat ≤ 57)

/-- Literal matcher: consume the given characters or fail. -/
def eatLit : List Char → List Char → Option (List Char)
  | [], cs => some cs
  | _ :: _, [] => none
  | p :: ps, c :: cs => if p == c then eatLit ps cs else none

/-- Greedy matcher for one-or-more whitespace.  Maximal munch agrees
with the backtracking regex semantics here because every follower of a
whitespace run in the two patterns is a non-whitespace character. -/
def eatWs1 : List Char → Option (List Char)
  | [] => none
  | c :: rest => if isWs c then some (rest.dropWhile isWs) else none

/-- Greedy matcher for a name of shape [A-Z][a-zA-Z0-9]*.  Maximal munch
agrees with the regex because the followers (whitespace, equals, colon,
or nothing) are disjoint from the alphanumeric class. -/
def eatName : List Char → Option (String × List Char)
  | [] => none
  | c :: rest =>
    if isUpperCh c then some (⟨c :: rest.takeWhile isAlnumCh⟩, rest.dropWhile isAlnumCh)
    else none

/-- Match of the first fallback pattern at the start of the text:
export backslash-s+ (function|const) backslash-s+ ([A-Z][a-zA-Z0-9]*)
backslash-s* [=:].  The alternation is committed: the two keywords start
with different letters, so regex backtracking can never recover a
failure of the suffix by switching alternative. -/
def matchFunConstAt (cs : List Char) : Option (String × List Char) :=
  match eatLit "export".data cs with
  | none => none
  | some cs1 =>
    match eatWs1 cs1 with
    | none => none
    | some cs2 =>
      let kw :=
        match eatLit "function".data cs2 with
        | some r => some r
        | none => eatLit "const".data cs2
      match kw with
      | none => none
      | some cs3 =>
        match eatWs1 cs3 with
        | none => none
        | some cs4 =>
          match eatName cs4 with
          | none => none
          | some (name, cs5) =>
            match cs5.dropWhile isWs with
            | '=' :: rest => some (name, rest)
            | ':' :: rest => some (name, rest)
            | _ => none

/-- Match of the second fallback pattern at the start of the text:
export backslash-s+ class backslash-s+ ([A-Z][a-zA-Z0-9]*). -/
def matchClassAt (cs : List Char) : Option (String × List Char) :=
  match eatLit "export".data cs with
  | none => none
  | some cs1 =>
    match eatWs1 cs1 with
    | none => none
    | some cs2 =>
      match eatLit "class".data cs2 with
      | none => none
      | some cs3 =>
        match eatWs1 cs3 with
        | none => none
        | some cs4 =>
          match eatName cs4 with
          | none => none
          | some (name, cs5) => some (name, cs5)

/-- Repeated exec loop of a global regex: try each start position from
left to right, and continue after the end of every match (lastIndex).
The fuel argument is instantiated with the text length, which bounds the
number of steps because every step consumes at least one character. -/
def scanRegex (m : List Char → Option (String × List Char)) : Nat → List Char → List String
  | 0, _ => []
  | _ + 1, [] => []
  | fuel + 1, c :: rest =>
    match m (c :: rest) with
    | some (name, rest') => name :: scanRegex m fuel rest'
    | none => scanRegex m fuel rest

/-- Embedding of componentTreeProvider.extractComponentsFallback on the
file content: all matches of the function/const pattern followed by all
matches of the class pattern. -/
def extractComponentsFallback (content : String) : List String :=
  scanRegex matchFunConstAt content.data.length content.data ++
    scanRegex matchClassAt content.data.length content.data

/-! Helper lemmas. -/

/-- Round trip of Char.ofNat on the uppercase ASCII range. -/
theorem charOfNat_toNat (n : Nat) (h1 : 65 ≤ n) (h2 : n ≤ 90) :
    (Char.ofNat n).toNat = n := by
  have hv : n.isValidChar := Or.inl (by omega)
  simp [Char.ofNat, hv, Char.ofNatAux, Char.toNat]
  rfl

/-- A name passing the uppercase-stability gate does not start with a
lowercase ASCII letter. -/
theorem firstCharStable_not_lower (n : String) (h : firstCharStable n = true) :
    startsLowerAscii n = false := by
  unfold firstCharStable at h
  unfold startsLowerAscii
  cases hd : n.data with
  | nil => rfl
  | cons c cs =>
    rw [hd] at h
    simp only [jsUpperNat] at h
    by_cases hc : 97 ≤ c.toNat ∧ c.toNat ≤ 122
    · rw [if_pos hc] at h
      rw [beq_iff_eq] at h
      omega
    · simp [hc]

/-- The detector gate inside isReactComponent. -/
theorem isReactComponent_eq_gate (name : String) (body : List Stmt) :
    isReactComponent name body = firstCharStable name := by
  unfold isReactComponent
  by_cases h : firstCharStable name = true
  · simp only [h, if_true]
    by_cases h1 : detectHasJSX body <;> by_cases h2 : anyReturnS body <;> simp [h1, h2]
  · simp at h
    simp [h]

/-- The detector gate inside isReactClassComponent. -/
theorem isReactClassComponent_gate (n : String) (sup : Option SuperClass)
    (methods : List String) (h : isReactClassComponent (some n) sup methods = true) :
    firstCharStable n = true := by
  by_cases hg : firstCharStable n = true
  · exact hg
  · rw [Bool.not_eq_true] at hg
    simp [isReactClassComponent, hg] at h

/-- The detector gate inside isComponentVariable. -/
theorem isComponentVariable_gate (init : Option Expr) (n : String)
    (h : isComponentVariable init n = true) : firstCharStable n = true := by
  unfold isComponentVariable at h
  cases init with
  | none => simp at h
  | some i =>
    by_cases hg : firstCharStable n = true
    · exact hg
    · simp at hg
      rw [hg] at h
      simp at h

/-- The name derived from a file name never starts with a lowercase
ASCII letter: a leading lowercase letter is uppercased, and the fallback
name Component starts uppercase. -/
theorem capLeadChar_not_lower (c : Char) :
    ¬ (97 ≤ (capLeadChar c).toNat ∧ (capLeadChar c).toNat ≤ 122) := by
  unfold capLeadChar
  by_cases hc : 97 ≤ c.toNat ∧ c.toNat ≤ 122
  · rw [if_pos hc]
    rw [charOfNat_toNat _ (by omega) (by omega)]
    omega
  · rw [if_neg hc]
    exact hc

theorem deriveName_not_lower (f : String) : startsLowerAscii (deriveName f) = false := by
  unfold deriveName
  dsimp only
  cases hs : (baseNameNoExt f).data.dropWhile (fun c => c == '_') with
  | nil => rfl
  | cons c cs =>
    simp only [List.isEmpty_cons, Bool.false_eq_true, if_false]
    unfold startsLowerAscii
    simp only
    rw [decide_eq_false_iff_not]
    exact capLeadChar_not_lower c

/-- Membership after a set insertion. -/
theorem mem_addComp (acc : List String) (n x : String) (h : x ∈ addComp acc n) :
    x ∈ acc ∨ x = n := by
  unfold addComp at h
  by_cases hc : acc.contains n
  · rw [if_pos hc] at h
    exact Or.inl h
  · rw [if_neg hc] at h
    rcases List.mem_append.mp h with h1 | h1
    · exact Or.inl h1
    · simp at h1
      exact Or.inr h1

/-- Names added by the declarator loop of the named-export visitor pass
the gate. -/
theorem namedVarFold_mem (ds : List Declarator) (acc : List String) (x : String)
    (h : x ∈ ds.foldl namedVarStep acc) :
    x ∈ acc ∨ startsLowerAscii x = false := by
  induction ds generalizing acc with
  | nil => exact Or.inl h
  | cons d rest ih =>
    rcases ih (namedVarStep acc d) h with h1 | h1
    · unfold namedVarStep at h1
      cases hd : d.1 with
      | none =>
        rw [hd] at h1
        exact Or.inl h1
      | some n =>
        rw [hd] at h1
        by_cases hv : isComponentVariable d.2 n = true
        · simp only [hv, if_true] at h1
          rcases mem_addComp _ _ _ h1 with h2 | h2
          · exact Or.inl h2
          · subst h2
            exact Or.inr (firstCharStable_not_lower _ (isComponentVariable_gate _ _ hv))
        · rw [Bool.not_eq_true] at hv
          simp only [hv, Bool.false_eq_true, if_false] at h1
          exact Or.inl h1
    · exact Or.inr h1

/-- Names contributed by one statement of the detector either pass the
lowercase filter or come from the unchecked bare-identifier default
export. -/
theorem extractStep_mem (f : String) (s : TopStmt) (acc : List String) (x : String)
    (h : x ∈ extractStep f acc s) :
    x ∈ acc ∨ startsLowerAscii x = false ∨
      s = TopStmt.exportDefault (.expr (.ident x)) := by
  cases s with
  | impDecl source bindings => exact Or.inl h
  | funDeclTop id body => exact Or.inl h
  | stmt st => exact Or.inl h
  | exportDefault d =>
    cases d with
    | funDecl id body =>
      cases id with
      | none => exact Or.inl h
      | some n =>
        unfold extractStep at h
        by_cases hr : isReactComponent n body = true
        · simp only [hr, if_true] at h
          rcases mem_addComp _ _ _ h with h1 | h1
          · exact Or.inl h1
          · subst h1
            rw [isReactComponent_eq_gate] at hr
            exact Or.inr (Or.inl (firstCharStable_not_lower _ hr))
        · rw [Bool.not_eq_true] at hr
          simp only [hr, Bool.false_eq_true, if_false] at h
          exact Or.inl h
    | classDecl id sup methods =>
      cases id with
      | none => exact Or.inl h
      | some n =>
        unfold extractStep at h
        by_cases hr : isReactClassComponent (some n) sup methods = true
        · simp only [hr, if_true] at h
          rcases mem_addComp _ _ _ h with h1 | h1
          · exact Or.inl h1
          · subst h1
            exact Or.inr (Or.inl (firstCharStable_not_lower _
              (isReactClassComponent_gate _ _ _ hr)))
        · rw [Bool.not_eq_true] at hr
          simp only [hr, Bool.false_eq_true, if_false] at h
          exact Or.inl h
    | varDecl decls => exact Or.inl h
    | expr e =>
      cases e with
      | ident n =>
        unfold extractStep at h
        rcases mem_addComp _ _ _ h with h1 | h1
        · exact Or.inl h1
        · subst h1
          exact Or.inr (Or.inr rfl)
      | arrowExprBody body =>
        unfold extractStep at h
        by_cases hr : isComponentExpression (.arrowExprBody body) = true
        · simp only [hr, if_true] at h
          rcases mem_addComp _ _ _ h with h1 | h1
          · exact Or.inl h1
          · subst h1
            exact Or.inr (Or.inl (deriveName_not_lower f))
        · rw [Bool.not_eq_true] at hr
          simp only [hr, Bool.false_eq_true, if_false] at h
          exact Or.inl h
      | arrowBlockBody body =>
        unfold extractStep at h
        by_cases hr : isComponentExpression (.arrowBlockBody body) = true
        · simp only [hr, if_true] at h
          rcases mem_addComp _ _ _ h with h1 | h1
          · exact Or.inl h1
          · subst h1
            exact Or.inr (Or.inl (deriveName_not_lower f))
        · rw [Bool.not_eq_true] at hr
          simp only [hr, Bool.false_eq_true, if_false] at h
          exact Or.inl h
      | funExpr body =>
        unfold extractStep at h
        by_cases hr : isComponentExpression (.funExpr body) = true
        · simp only [hr, if_true] at h
          rcases mem_addComp _ _ _ h with h1 | h1
          · exact Or.inl h1
          · subst h1
            exact Or.inr (Or.inl (deriveName_not_lower f))
        · rw [Bool.not_eq_true] at hr
          simp only [hr, Bool.false_eq_true, if_false] at h
          exact Or.inl h
      | call callee args => exact Or.inl h
      | member obj prop => exact Or.inl h
      | jsxElem => exact Or.inl h
      | jsxFrag => exact Or.inl h
      | paren inner => exact Or.inl h
      | strLit s => exact Or.inl h
      | otherLit => exact Or.inl h
  | exportNamed kind d =>
    cases kind with
    | typeK => exact Or.inl h
    | value =>
      cases d with
      | none => exact Or.inl h
      | some nd =>
        cases nd with
        | funDecl id body =>
          cases id with
          | none => exact Or.inl h
          | some n =>
            unfold extractStep at h
            by_cases hr : isReactComponent n body = true
            · simp only [hr, if_true] at h
              rcases mem_addComp _ _ _ h with h1 | h1
              · exact Or.inl h1
              · subst h1
                rw [isReactComponent_eq_gate] at hr
                exact Or.inr (Or.inl (firstCharStable_not_lower _ hr))
            · rw [Bool.not_eq_true] at hr
              simp only [hr, Bool.false_eq_true, if_false] at h
              exact Or.inl h
        | classDecl id sup methods =>
          cases id with
          | none => exact Or.inl h
          | some n =>
            unfold extractStep at h
            by_cases hr : isReactClassComponent (some n) sup methods = true
            · simp only [hr, if_true] at h
              rcases mem_addComp _ _ _ h with h1 | h1
              · exact Or.inl h1
              · subst h1
                exact Or.inr (Or.inl (firstCharStable_not_lower _
                  (isReactClassComponent_gate _ _ _ hr)))
            · rw [Bool.not_eq_true] at hr
              simp only [hr, Bool.false_eq_true, if_false] at h
              exact Or.inl h
        | varDecl vk decls =>
          unfold extractStep at h
          rcases namedVarFold_mem decls acc x h with h1 | h1
          · exact Or.inl h1
          · exact Or.inr (Or.inl h1)

/-- Fold form of the previous lemma over a whole program. -/
theorem extractFold_mem (f : String) (p : List TopStmt) (acc : List String) (x : String)
    (h : x ∈ p.foldl (extractStep f) acc) :
    x ∈ acc ∨ startsLowerAscii x = false ∨
      TopStmt.exportDefault (.expr (.ident x)) ∈ p := by
  induction p generalizing acc with
  | nil => exact Or.inl h
  | cons s rest ih =>
    rcases ih (extractStep f acc s) h with h1 | h1 | h1
    · rcases extractStep_mem f s acc x h1 with h2 | h2 | h2
      · exact Or.inl h2
      · exact Or.inr (Or.inl h2)
      · exact Or.inr (Or.inr (by rw [h2]; exact List.mem_cons_self _ _))
    · exact Or.inr (Or.inl h1)
    · exact Or.inr (Or.inr (List.mem_cons_of_mem _ h1))

/-! Claim C4. -/

/-- C4 counterexample: the bare-identifier default export
export default foo is reported by detection although foo starts with a
lowercase letter, refuting the claim that the uppercase filter is a hard
gate applied to every exported declaration. -/
theorem c4_counterexample_bare_ident_lowercase :
    extractComponentsWithAST "x.tsx" [.exportDefault (.expr (.ident "foo"))] = ["foo"] ∧
      startsLowerAscii "foo" = true :=
  ⟨rfl, rfl⟩

/-- C4 (amended): no identifier starting with a lowercase ASCII letter
is ever reported as a component, except through the bare-identifier
default export form export default X, which is added to the component
set with no name check at all. -/
theorem c4_lowercase_only_from_bare_ident (f : String) (p : List TopStmt) (x : String)
    (h : x ∈ extractComponentsWithAST f p) :
    startsLowerAscii x = false ∨ TopStmt.exportDefault (.expr (.ident x)) ∈ p := by
  unfold extractComponentsWithAST at h
  rcases extractFold_mem f p [] x h with h1 | h1 | h1
  · exact absurd h1 (List.not_mem_nil x)
  · exact Or.inl h1
  · exact Or.inr h1

/-- C4 witness: the amended theorem applied to a concrete file with a
named function export. -/
theorem c4_lowercase_only_from_bare_ident_witness :
    startsLowerAscii "Panel" = false ∨
      TopStmt.exportDefault (.expr (.ident "Panel")) ∈
        ([.exportNamed .value (some (.funDecl (some "Panel") []))] : List TopStmt) :=
  c4_lowercase_only_from_bare_ident "App.tsx"
    [.exportNamed .value (some (.funDecl (some "Panel") []))] "Panel"
    (by decide)

/-! Claim C5. -/

/-- C5 counterexample: an exported function declaration whose only
return statement returns a non-markup literal is still reported as a
component, refuting the only-if direction of the claim. -/
theorem c5_counterexample_non_markup_return :
    extractComponentsWithAST "Foo.tsx"
        [.exportNamed .value (some (.funDecl (some "Foo") [.ret (some .otherLit)]))]
      = ["Foo"] ∧ hasJSXElement (some .otherLit) = false :=
  ⟨rfl, rfl⟩

/-- C5 (amended): detection classifies an exported function declaration
(default or named) as a component exactly when its name passes the
uppercase-stability gate; the body scan runs but every branch after the
gate returns true, so the body content never matters. -/
theorem c5_function_declaration_gate_only (f name : String) (body : List Stmt) :
    isReactComponent name body = firstCharStable name ∧
    extractComponentsWithAST f [.exportNamed .value (some (.funDecl (some name) body))]
      = (if firstCharStable name then [name] else []) ∧
    extractComponentsWithAST f [.exportDefault (.funDecl (some name) body)]
      = (if firstCharStable name then [name] else []) := by
  refine ⟨isReactComponent_eq_gate name body, ?_, ?_⟩
  · show extractStep f [] (.exportNamed .value (some (.funDecl (some name) body))) = _
    unfold extractStep
    dsimp only
    rw [isReactComponent_eq_gate]
    by_cases hg : firstCharStable name = true
    · simp [hg, addComp]
    · rw [Bool.not_eq_true] at hg
      simp [hg]
  · show extractStep f [] (.exportDefault (.funDecl (some name) body)) = _
    unfold extractStep
    dsimp only
    rw [isReactComponent_eq_gate]
    by_cases hg : firstCharStable name = true
    · simp [hg, addComp]
    · rw [Bool.not_eq_true] at hg
      simp [hg]

/-! Claim C1. -/

/-- C1: evaluation of the transform at the Scenario A input.  The
ExportDefaultDeclaration visitor assigns the wrapped call to
path.node.declaration, so the whole function declaration (body included)
is replaced by export default withProfiler(Greeting, "Greeting"): the
output program contains no function declaration at all, the identifier
Greeting is left unbound, and the new import lands after the export
(splice at importInsertionIndex + 1 = 1).  The claim and the
specification require the plain declaration to be preserved in front of
the wrapped export. -/
theorem c1_default_function_declaration_deleted :
    wrapComponentWithAST
        [.exportDefault (.funDecl (some "Greeting") [.ret (some .jsxElem)])]
        "Greeting" "./withProfiler"
      = some [.exportDefault (.expr (wrapCall (.ident "Greeting") "Greeting")),
              .impDecl "./withProfiler" ["withProfiler"]] :=
  rfl

/-! Claim C7. -/

/-- C7: an already wrapped default export is skipped by the idempotency
guard; the transform reports no change (none), wrapComponent leaves the
store untouched and returns false, exactly as it does for a file in
which the component name does not occur. -/
theorem c7_already_wrapped_reports_no_change :
    wrapComponentWithAST
        [.exportDefault (.expr (wrapCall (.ident "Greeting") "Greeting"))]
        "Greeting" "./withProfiler" = none ∧
    wrapComponent
        [("root/App.tsx",
          [.exportDefault (.expr (wrapCall (.ident "Greeting") "Greeting"))])]
        (some "./withProfiler") "App.tsx::Greeting" "Greeting" "root"
      = (false,
         [("root/App.tsx",
           [.exportDefault (.expr (wrapCall (.ident "Greeting") "Greeting"))])]) ∧
    wrapComponent
        [("root/App.tsx", [.exportDefault (.expr (.ident "Box"))])]
        (some "./withProfiler") "App.tsx::Greeting" "Greeting" "root"
      = (false, [("root/App.tsx", [.exportDefault (.expr (.ident "Box"))])]) :=
  ⟨rfl, rfl, rfl⟩

/-! Claim C8. -/

/-- C8: evaluation of the fallback scanner.  The first fallback pattern
requires an equals sign or a colon right after the exported name (the
regex suffix matching whitespace then one of = or :), so a plain
function declaration head export function Panel() never matches and the
fallback misses it entirely, while the const and class patterns work;
this contradicts both the claim and the comment above the regex in the
source. -/
theorem c8_fallback_misses_function_declarations :
    extractComponentsFallback "export function Panel() \x7b return null; \x7d" = [] ∧
    extractComponentsFallback "export const Panel = () => null;" = ["Panel"] ∧
    extractComponentsFallback "export class Panel extends Component \x7b\x7d" = ["Panel"] :=
  ⟨rfl, rfl, rfl⟩

/-! Claim C9. -/

/-- C9: evaluation of the import placement at a file with no imports.
The index importInsertionIndex starts at 0 and is never lowered, and
its non-negativity guard always holds, so the new import is spliced at
index 1 — after the first statement — instead of at the very top as the
claim (and the comment in the source) states. -/
theorem c9_no_imports_inserts_after_first_statement :
    wrapComponentWithAST
        [.exportNamed .value (some (.varDecl "const"
          [(some "Box", some (.arrowExprBody .jsxElem))]))]
        "Box" "./withProfiler"
      = some [.exportNamed .value (some (.varDecl "const"
                [(some "Box", some (wrapCall (.arrowExprBody .jsxElem) "Box"))])),
              .impDecl "./withProfiler" ["withProfiler"]] :=
  rfl

/-! Claim C10. -/

/-- C10: type-only exports are invisible to both passes: the detector
step returns its accumulator unchanged on any type-kind named export,
and the wrapping step returns the statement unchanged with a zero wrap
count, for every carried declaration and every component name. -/
theorem c10_type_exports_ignored (f : String) (acc : List String)
    (d : Option NamedDecl) (n : String) :
    extractStep f acc (.exportNamed .typeK d) = acc ∧
      wrapStep n (.exportNamed .typeK d) = ([.exportNamed .typeK d], 0) :=
  ⟨rfl, rfl⟩

/-! Reflexivity of the structural equalities, needed to read the
negative branch of the content comparison as propositional
inequality. -/

mutual

theorem beqExpr_refl : ∀ e : Expr, beqExpr e e = true
  | .ident n => by simp [beqExpr]
  | .call c args => by simp [beqExpr, beqExpr_refl c, beqExprList_refl args]
  | .member o pr => by simp [beqExpr, beqExpr_refl o]
  | .arrowExprBody b => by simp [beqExpr, beqExpr_refl b]
  | .arrowBlockBody b => by simp [beqExpr, beqStmtList_refl b]
  | .funExpr b => by simp [beqExpr, beqStmtList_refl b]
  | .jsxElem => by simp [beqExpr]
  | .jsxFrag => by simp [beqExpr]
  | .paren i => by simp [beqExpr, beqExpr_refl i]
  | .strLit s => by simp [beqExpr]
  | .otherLit => by simp [beqExpr]

theorem beqExprList_refl : ∀ es : List Expr, beqExprList es es = true
  | [] => by simp [beqExprList]
  | e :: es => by simp [beqExprList, beqExpr_refl e, beqExprList_refl es]

theorem beqStmt_refl : ∀ s : Stmt, beqStmt s s = true
  | .ret a => by simp [beqStmt, beqOptExpr_refl a]
  | .varStmt ds => by simp [beqStmt, beqDeclList_refl ds]
  | .exprStmt e => by simp [beqStmt, beqExpr_refl e]
  | .block b => by simp [beqStmt, beqStmtList_refl b]
  | .funDeclStmt i b => by simp [beqStmt, beqStmtList_refl b]

theorem beqStmtList_refl : ∀ ss : List Stmt, beqStmtList ss ss = true
  | [] => by simp [beqStmtList]
  | s :: ss => by simp [beqStmtList, beqStmt_refl s, beqStmtList_refl ss]

theorem beqOptExpr_refl : ∀ a : Option Expr, beqOptExpr a a = true
  | none => by simp [beqOptExpr]
  | some e => by simp [beqOptExpr, beqExpr_refl e]

theorem beqDeclList_refl : ∀ ds : List (Option String × Option Expr), beqDeclList ds ds = true
  | [] => by simp [beqDeclList]
  | (i, e) :: ds => by simp [beqDeclList, beqOptExpr_refl e, beqDeclList_refl ds]

end

theorem beqSuper_refl (s : Option SuperClass) : beqSuper s s = true := by
  rcases s with _ | s
  · rfl
  · cases s <;> simp [beqSuper]

theorem beqNamedDecl_refl (d : Option NamedDecl) : beqNamedDecl d d = true := by
  rcases d with _ | d
  · rfl
  · cases d <;> simp [beqNamedDecl, beqStmtList_refl, beqSuper_refl, beqDeclList_refl]

theorem beqDefaultDecl_refl (d : DefaultDecl) : beqDefaultDecl d d = true := by
  cases d <;>
    simp [beqDefaultDecl, beqStmtList_refl, beqSuper_refl, beqDeclList_refl, beqExpr_refl]

theorem beqKind_refl (k : ExportKind) : beqKind k k = true := by
  cases k <;> rfl

theorem beqTopStmt_refl (s : TopStmt) : beqTopStmt s s = true := by
  cases s <;>
    simp [beqTopStmt, beqDefaultDecl_refl, beqKind_refl, beqNamedDecl_refl, beqStmtList_refl,
      beqStmt_refl]

theorem beqProg_refl (p : List TopStmt) : beqProg p p = true := by
  induction p with
  | nil => rfl
  | cons s rest ih => simp [beqProg, beqTopStmt_refl s, ih]

/-- Propositional reading of a failed content comparison. -/
theorem beqProg_false_ne {p q : List TopStmt} (h : beqProg p q = false) : p ≠ q := by
  intro he
  subst he
  rw [beqProg_refl] at h
  cases h

/-! Claim C6. -/

/-- C6: the wrap operation performs at most one write, and only after a
successful transform whose output differs from the original content;
every false result leaves the store untouched, and a true result is
exactly one write of the transformed program to the addressed file. -/
theorem c6_single_guarded_write (st : Store) (wp : Option String) (cp n root : String) :
    ((wrapComponent st wp cp n root).1 = false → (wrapComponent st wp cp n root).2 = st) ∧
    ((wrapComponent st wp cp n root).1 = true →
      ∃ ip orig t, wp = some ip ∧
        lookupStore st (fullPathOf root cp) = some orig ∧
        wrapComponentWithAST orig n ip = some t ∧
        t ≠ orig ∧
        (wrapComponent st wp cp n root).2 = writeStore st (fullPathOf root cp) t) := by
  unfold wrapComponent
  dsimp only
  cases hl : lookupStore st (fullPathOf root cp) with
  | none => exact ⟨fun _ => rfl, fun hc => by cases hc⟩
  | some orig =>
    dsimp only
    cases wp with
    | none => exact ⟨fun _ => rfl, fun hc => by cases hc⟩
    | some ip =>
      dsimp only
      cases hw : wrapComponentWithAST orig n ip with
      | none => exact ⟨fun _ => rfl, fun hc => by cases hc⟩
      | some t =>
        dsimp only
        by_cases hb : beqProg t orig = true
        · rw [if_pos hb]
          exact ⟨fun _ => rfl, fun hc => by cases hc⟩
        · rw [if_neg hb]
          rw [Bool.not_eq_true] at hb
          constructor
          · intro hc
            cases hc
          · intro _
            refine ⟨ip, orig, t, rfl, rfl, hw, beqProg_false_ne hb, rfl⟩

/-- C6 witness: the theorem applied to a failing call on the empty store
and to a succeeding call on a store holding the Scenario A file. -/
theorem c6_single_guarded_write_witness :
    (wrapComponent ([] : Store) none "App.tsx" "Greeting" "root").2 = ([] : Store) ∧
    (∃ ip orig t, (some "./withProfiler" : Option String) = some ip ∧
      lookupStore
          [("root/App.tsx",
            [TopStmt.exportDefault (.funDecl (some "Greeting") [.ret (some .jsxElem)])])]
          (fullPathOf "root" "App.tsx::Greeting") = some orig ∧
      wrapComponentWithAST orig "Greeting" ip = some t ∧
      t ≠ orig ∧
      (wrapComponent
          [("root/App.tsx",
            [TopStmt.exportDefault (.funDecl (some "Greeting") [.ret (some .jsxElem)])])]
          (some "./withProfiler") "App.tsx::Greeting" "Greeting" "root").2
        = writeStore
            [("root/App.tsx",
              [TopStmt.exportDefault (.funDecl (some "Greeting") [.ret (some .jsxElem)])])]
            (fullPathOf "root" "App.tsx::Greeting") t) :=
  ⟨(c6_single_guarded_write [] none "App.tsx" "Greeting" "root").1 rfl,
   (c6_single_guarded_write
      [("root/App.tsx",
        [TopStmt.exportDefault (.funDecl (some "Greeting") [.ret (some .jsxElem)])])]
      (some "./withProfiler") "App.tsx::Greeting" "Greeting" "root").2 rfl⟩

/-! Claim C3. -/

/-- C3 counterexample: Scenario B with the instrumentation symbol
bound by an existing import from the path ./x.  The check of the first
pass looks at the module path of each import for the substring
withProfiler, not at the imported bindings, so the binding
withProfiler from ./x is not seen: the initializer is wrapped, and a
second, duplicate import is inserted after the existing one. -/
theorem c3_counterexample_binding_not_scanned :
    wrapComponentWithAST
        [.impDecl "./x" ["withProfiler"],
         .exportNamed .value (some (.varDecl "const"
           [(some "Box", some (.arrowExprBody .jsxElem))]))]
        "Box" "./withProfiler"
      = some [.impDecl "./x" ["withProfiler"],
              .impDecl "./withProfiler" ["withProfiler"],
              .exportNamed .value (some (.varDecl "const"
                [(some "Box", some (wrapCall (.arrowExprBody .jsxElem) "Box"))]))] :=
  rfl

/-- C3 (amended): the existing-import check is a scan of the module
paths of the top-level import statements for the substring withProfiler.
When the existing import path does contain that substring, Scenario B
behaves as claimed: the initializer of Box is wrapped and no duplicate
is inserted; the names bound by the import play no part. -/
theorem c3_path_substring_blocks_duplicate (src ip : String) (bindings : List String)
    (h : strContains src "withProfiler" = true) :
    wrapComponentWithAST
        [.impDecl src bindings,
         .exportNamed .value (some (.varDecl "const"
           [(some "Box", some (.arrowExprBody .jsxElem))]))]
        "Box" ip
      = some [.impDecl src bindings,
              .exportNamed .value (some (.varDecl "const"
                [(some "Box", some (wrapCall (.arrowExprBody .jsxElem) "Box"))]))] := by
  unfold wrapComponentWithAST
  have hh : hasWithProfilerImport
      [.impDecl src bindings,
       .exportNamed .value (some (.varDecl "const"
         [(some "Box", some (.arrowExprBody .jsxElem))]))] = true := by
    simp [hasWithProfilerImport, h]
  rw [hh]
  rfl

/-- C3 witness: the amended theorem at the import path ./withProfiler. -/
theorem c3_path_substring_blocks_duplicate_witness :
    wrapComponentWithAST
        [.impDecl "./withProfiler" ["withProfiler"],
         .exportNamed .value (some (.varDecl "const"
           [(some "Box", some (.arrowExprBody .jsxElem))]))]
        "Box" "./withProfiler"
      = some [.impDecl "./withProfiler" ["withProfiler"],
              .exportNamed .value (some (.varDecl "const"
                [(some "Box", some (wrapCall (.arrowExprBody .jsxElem) "Box"))]))] :=
  c3_path_substring_blocks_duplicate "./withProfiler" "./withProfiler"
    ["withProfiler"] (by decide)

/-! Lemmas for claim C2: one wrapped program is a fixed point of the
wrapping pass. -/

/-- A wrapped call never passes the likely-component test: its callee is
the identifier withProfiler, which is not a decorating helper. -/
theorem isLikelyComponent_wrapCall (i : Expr) (m : String) :
    isLikelyComponent (some (wrapCall i m)) = false :=
  rfl

/-- A wrapped call is recognized by the idempotency guard. -/
theorem isAlreadyWrapped_wrapCall (i : Expr) (m : String) :
    isAlreadyWrapped (wrapCall i m) = true :=
  rfl

/-- Unfolding equation of the declarator loop body on a pair. -/
theorem wrapDeclarator_eq (n : String) (id : Option String) (init : Option Expr) :
    wrapDeclarator n (id, init) =
      if (id == some n && isLikelyComponent init) = true then
        if isAlreadyWrappedOpt init = true then ((id, init), 0)
        else
          match init with
          | some i => ((id, some (wrapCall i n)), 1)
          | none => ((id, init), 0)
      else ((id, init), 0) :=
  rfl

/-- A declarator whose initializer is a wrapped call is left unchanged
by the declarator loop. -/
theorem wrapDeclarator_wrapped (n : String) (id : Option String) (i : Expr) (m : String) :
    wrapDeclarator n (id, some (wrapCall i m)) = ((id, some (wrapCall i m)), 0) := by
  rw [wrapDeclarator_eq, isLikelyComponent_wrapCall]
  simp

/-- Applying the declarator loop to its own output wraps nothing. -/
theorem wrapDeclarator_idem (n : String) (d : Declarator) :
    wrapDeclarator n (wrapDeclarator n d).1 = ((wrapDeclarator n d).1, 0) := by
  obtain ⟨id, init⟩ := d
  by_cases h1 : (id == some n && isLikelyComponent init) = true
  · by_cases h2 : isAlreadyWrappedOpt init = true
    · rw [show wrapDeclarator n (id, init) = ((id, init), 0) by
        rw [wrapDeclarator_eq, if_pos h1, if_pos h2]]
      rw [wrapDeclarator_eq, if_pos h1, if_pos h2]
    · cases init with
      | none =>
        rw [show wrapDeclarator n (id, none) = ((id, none), 0) by
          rw [wrapDeclarator_eq, if_pos h1, if_neg h2]]
        rw [wrapDeclarator_eq, if_pos h1, if_neg h2]
      | some i =>
        rw [show wrapDeclarator n (id, some i) = ((id, some (wrapCall i n)), 1) by
          rw [wrapDeclarator_eq, if_pos h1, if_neg h2]]
        exact wrapDeclarator_wrapped n id i n
  · rw [show wrapDeclarator n (id, init) = ((id, init), 0) by
      rw [wrapDeclarator_eq, if_neg h1]]
    rw [wrapDeclarator_eq, if_neg h1]

/-- Unfolding equation of the declarator loop on a cons cell. -/
theorem wrapDecls_cons (n : String) (d : Declarator) (rest : List Declarator) :
    wrapDecls n (d :: rest) =
      ((wrapDeclarator n d).1 :: (wrapDecls n rest).1,
       (wrapDeclarator n d).2 + (wrapDecls n rest).2) :=
  rfl

/-- List form of the idempotence of the declarator loop. -/
theorem wrapDecls_idem (n : String) (ds : List Declarator) :
    wrapDecls n (wrapDecls n ds).1 = ((wrapDecls n ds).1, 0) := by
  induction ds with
  | nil => rfl
  | cons d rest ih =>
    rw [wrapDecls_cons n d rest]
    dsimp only
    rw [wrapDecls_cons, wrapDeclarator_idem, ih]
    rfl

/-- Outcome analysis of the default-export visitor: either the
statement is returned unchanged with a zero count, or it is replaced by
a wrapped call export with count one. -/
theorem wrapStepDefault_cases (n : String) (d : DefaultDecl) :
    wrapStepDefault n d = ([.exportDefault d], 0) ∨
    ∃ m, wrapStepDefault n d = ([.exportDefault (.expr (wrapCall (.ident m) m))], 1) := by
  unfold wrapStepDefault
  by_cases hw : isAlreadyWrappedDefault d = true
  · rw [if_pos hw]
    exact Or.inl rfl
  · rw [if_neg hw]
    cases d with
    | funDecl id body =>
      cases id with
      | none => exact Or.inl rfl
      | some fid =>
        dsimp only
        by_cases hn : (fid == n) = true
        · rw [if_pos hn]
          exact Or.inr ⟨fid, rfl⟩
        · rw [if_neg hn]
          exact Or.inl rfl
    | classDecl id sup methods =>
      cases id with
      | none => exact Or.inl rfl
      | some cid =>
        dsimp only
        by_cases hn : (cid == n) = true
        · rw [if_pos hn]
          exact Or.inr ⟨cid, rfl⟩
        · rw [if_neg hn]
          exact Or.inl rfl
    | varDecl decls =>
      cases decls with
      | nil => exact Or.inl rfl
      | cons d0 rest =>
        obtain ⟨oid, vinit⟩ := d0
        cases oid with
        | none => exact Or.inl rfl
        | some vid =>
          dsimp only
          by_cases hn : (vid == n) = true
          · rw [if_pos hn]
            exact Or.inr ⟨vid, rfl⟩
          · rw [if_neg hn]
            exact Or.inl rfl
    | expr e =>
      cases e with
      | ident m =>
        dsimp only
        by_cases hn : (m == n) = true
        · rw [if_pos hn]
          exact Or.inr ⟨m, rfl⟩
        · rw [if_neg hn]
          exact Or.inl rfl
      | call callee args => exact Or.inl rfl
      | member obj prop => exact Or.inl rfl
      | arrowExprBody body => exact Or.inl rfl
      | arrowBlockBody body => exact Or.inl rfl
      | funExpr body => exact Or.inl rfl
      | jsxElem => exact Or.inl rfl
      | jsxFrag => exact Or.inl rfl
      | paren inner => exact Or.inl rfl
      | strLit s => exact Or.inl rfl
      | otherLit => exact Or.inl rfl

/-- Outcome analysis of the named-export visitor: unchanged with zero
count, a rewritten variable declaration, or the demoted function plus
wrapped export pair. -/
theorem wrapStepNamed_cases (n : String) (kind : ExportKind) (d : Option NamedDecl) :
    wrapStepNamed n kind d = ([.exportNamed kind d], 0) ∨
    (∃ vk decls, d = some (.varDecl vk decls) ∧ kind = .value ∧
      wrapStepNamed n kind d =
        ([.exportNamed .value (some (.varDecl vk (wrapDecls n decls).1))],
         (wrapDecls n decls).2)) ∨
    (∃ fid body, d = some (.funDecl (some fid) body) ∧ kind = .value ∧
      wrapStepNamed n kind d =
        ([.funDeclTop (some fid) body,
          .exportNamed .value (some (.varDecl "const"
            [(some n, some (wrapCall (.ident n) n))]))], 1)) := by
  cases kind with
  | typeK => exact Or.inl rfl
  | value =>
    cases d with
    | none => exact Or.inl rfl
    | some nd =>
      cases nd with
      | varDecl vk decls =>
        exact Or.inr (Or.inl ⟨vk, decls, rfl, rfl, rfl⟩)
      | funDecl id body =>
        cases id with
        | none => exact Or.inl rfl
        | some fid =>
          by_cases hn : (fid == n) = true
          · refine Or.inr (Or.inr ⟨fid, body, rfl, rfl, ?_⟩)
            unfold wrapStepNamed
            dsimp only
            rw [if_pos hn]
            rw [beq_iff_eq] at hn
            subst hn
            rfl
          · refine Or.inl ?_
            unfold wrapStepNamed
            dsimp only
            rw [if_neg hn]
      | classDecl id sup methods => exact Or.inl rfl

/-- Every statement produced by the wrapping pass is a fixed point of
the pass: a second visit wraps nothing and returns it unchanged. -/
theorem wrapStep_idem (n : String) (s s' : TopStmt) (h : s' ∈ (wrapStep n s).1) :
    wrapStep n s' = ([s'], 0) := by
  cases s with
  | impDecl src b =>
    simp only [wrapStep, List.mem_singleton] at h
    subst h
    rfl
  | funDeclTop id body =>
    simp only [wrapStep, List.mem_singleton] at h
    subst h
    rfl
  | stmt st =>
    simp only [wrapStep, List.mem_singleton] at h
    subst h
    rfl
  | exportDefault d =>
    have h' : s' ∈ (wrapStepDefault n d).1 := h
    rcases wrapStepDefault_cases n d with hc | ⟨m, hc⟩
    · rw [hc] at h'
      simp at h'
      subst h'
      exact hc
    · rw [hc] at h'
      simp at h'
      subst h'
      show wrapStepDefault n (.expr (wrapCall (.ident m) m)) = _
      unfold wrapStepDefault
      rw [if_pos (show isAlreadyWrappedDefault (.expr (wrapCall (.ident m) m)) = true from rfl)]
  | exportNamed kind d =>
    have h' : s' ∈ (wrapStepNamed n kind d).1 := h
    rcases wrapStepNamed_cases n kind d with hc | ⟨vk, decls, hd, hk, hc⟩ |
      ⟨fid, body, hd, hk, hc⟩
    · rw [hc] at h'
      simp at h'
      subst h'
      exact hc
    · rw [hc] at h'
      simp at h'
      subst h'
      show wrapStepNamed n .value (some (.varDecl vk (wrapDecls n decls).1)) = _
      unfold wrapStepNamed
      dsimp only
      rw [wrapDecls_idem]
    · rw [hc] at h'
      simp at h'
      rcases h' with h' | h' <;> subst h'
      · rfl
      · show wrapStepNamed n .value (some (.varDecl "const"
          [(some n, some (wrapCall (.ident n) n))])) = _
        unfold wrapStepNamed
        dsimp only
        rw [wrapDecls_cons, wrapDeclarator_wrapped]
        rfl

/-- Unfolding equation of the pass on a cons cell. -/
theorem wrapPass_cons (n : String) (s : TopStmt) (rest : List TopStmt) :
    wrapPass n (s :: rest) =
      ((wrapStep n s).1 ++ (wrapPass n rest).1,
       (wrapStep n s).2 + (wrapPass n rest).2) :=
  rfl

/-- Every statement of the pass output comes from the step output of
some input statement. -/
theorem wrapPass_mem (n : String) (p : List TopStmt) (s' : TopStmt)
    (h : s' ∈ (wrapPass n p).1) : ∃ s ∈ p, s' ∈ (wrapStep n s).1 := by
  induction p with
  | nil => cases h
  | cons s rest ih =>
    rw [wrapPass_cons] at h
    rcases List.mem_append.mp h with h1 | h1
    · exact ⟨s, List.mem_cons_self _ _, h1⟩
    · obtain ⟨t, htp, htm⟩ := ih h1
      exact ⟨t, List.mem_cons_of_mem _ htp, htm⟩

/-- A program all of whose statements are fixed points of the step is a
fixed point of the pass, with a zero wrap count. -/
theorem wrapPass_stable (n : String) (p : List TopStmt)
    (h : ∀ s ∈ p, wrapStep n s = ([s], 0)) : wrapPass n p = (p, 0) := by
  induction p with
  | nil => rfl
  | cons s rest ih =>
    rw [wrapPass_cons, h s (List.mem_cons_self _ _),
      ih (fun t ht => h t (List.mem_cons_of_mem _ ht))]
    rfl

/-- Membership through a splice insertion. -/
theorem spliceInsert_mem {α : Type} (i : Nat) (x : α) (l : List α) (y : α)
    (h : y ∈ spliceInsert i x l) : y = x ∨ y ∈ l := by
  unfold spliceInsert at h
  rcases List.mem_append.mp h with h1 | h1
  · exact Or.inr (List.take_subset _ _ h1)
  · rcases List.mem_cons.mp h1 with h1 | h1
    · exact Or.inl h1
    · exact Or.inr (List.drop_subset _ _ h1)

/-- Every statement of a changed transform output is a fixed point of
the step: it is either the inserted import or an output of the pass. -/
theorem wrapAST_out_stable (p : List TopStmt) (n ip : String) (q : List TopStmt)
    (h : wrapComponentWithAST p n ip = some q) :
    ∀ s' ∈ q, wrapStep n s' = ([s'], 0) := by
  intro s' hs
  unfold wrapComponentWithAST at h
  dsimp only at h
  split at h
  · injection h with h
    subst h
    split at hs
    · split at hs
      · rcases spliceInsert_mem _ _ _ _ hs with h1 | h1
        · subst h1
          rfl
        · obtain ⟨s, hsp, hmem⟩ := wrapPass_mem n p s' h1
          exact wrapStep_idem n s s' hmem
      · rcases List.mem_cons.mp hs with h1 | h1
        · subst h1
          rfl
        · obtain ⟨s, hsp, hmem⟩ := wrapPass_mem n p s' h1
          exact wrapStep_idem n s s' hmem
    · obtain ⟨s, hsp, hmem⟩ := wrapPass_mem n p s' hs
      exact wrapStep_idem n s s' hmem
  · cases h

/-- A changed transform output is reported unchanged by a second
transform call: the pass wraps nothing on it. -/
theorem wrapAST_idem (p : List TopStmt) (n ip : String) (q : List TopStmt)
    (h : wrapComponentWithAST p n ip = some q) :
    wrapComponentWithAST q n ip = none := by
  have hq : wrapPass n q = (q, 0) :=
    wrapPass_stable n q (wrapAST_out_stable p n ip q h)
  unfold wrapComponentWithAST
  dsimp only
  rw [hq]
  rfl

/-! Claim C2. -/

/-- C2: the transform is idempotent at the file level.  A first
application either changes nothing (and the text is unchanged) or
produces a program every statement of which the idempotency guard and
the likely-component test refuse to wrap again, so the second
application reports no change and returns the same text. -/
theorem c2_transform_idempotent (p : List TopStmt) (n ip : String) :
    transformFile (transformFile p n ip) n ip = transformFile p n ip := by
  unfold transformFile
  cases h : wrapComponentWithAST p n ip with
  | none =>
    simp only [h, Option.getD_none]
  | some q =>
    simp only [h, Option.getD_some, wrapAST_idem p n ip q h, Option.getD_none]

end RNCP
